import Mathlib

/-!
Shallow embedding of src/natural_language_query.py (class NaturalLanguageQuery),
a natural-language-to-SQL assistant: a conversation driver (run_query) around an
LLM chat API, and a SQL gate/executor (_execute_sql_query) with a keyword
denylist.  External services (the LLM and the PostgreSQL database) are modelled
as oracles: the database by a DbBehavior record describing how each step of the
connect/execute/fetch/commit sequence behaves, the LLM by the list of its
successive responses.  Python exceptions are modelled explicitly.  json.dumps
is modelled by serialization functions for exactly the value shapes the module
ever serializes: a one-field object of strings, an array of row dicts with
atomic cell values, and a plain string (the double encoding of tool results).
-/

namespace NLQ

/-- An atomic JSON-serializable Python value, as psycopg2 returns for standard
SQL cell types. -/
inductive JAtom where
  | jnull
  | jbool (b : Bool)
  | jint (n : Int)
  | jstr (s : String)
  deriving DecidableEq, Repr

/-- Lowercase hex digit, as produced by Python json escapes. -/
def hexDigit (n : Nat) : Char :=
  if n < 10 then Char.ofNat (48 + n) else Char.ofNat (87 + n)

/-- Four lowercase hex digits. -/
def hex4 (n : Nat) : String :=
  String.mk [hexDigit (n / 4096 % 16), hexDigit (n / 256 % 16),
             hexDigit (n / 16 % 16), hexDigit (n % 16)]

/-- Escape of a single character inside a JSON string literal, following
Python json.dumps defaults (ensure_ascii=True): quote and backslash escaped,
the usual short escapes, all other non-printable or non-ASCII code points as
uXXXX escapes, with surrogate pairs above U+FFFF. -/
def escapeChar (c : Char) : String :=
  if c = '"' then "\\\""
  else if c = '\\' then "\\\\"
  else if c = '\n' then "\\n"
  else if c = '\r' then "\\r"
  else if c = '\t' then "\\t"
  else if c.toNat = 8 then "\\b"
  else if c.toNat = 12 then "\\f"
  else if c.toNat < 32 ∨ 126 < c.toNat then
    if c.toNat < 65536 then "\\u" ++ hex4 c.toNat
    else
      "\\u" ++ hex4 (55296 + (c.toNat - 65536) / 1024) ++
      "\\u" ++ hex4 (56320 + (c.toNat - 65536) % 1024)
  else String.singleton c

/-- Model of Python json.dumps applied to a str value: a JSON string literal. -/
def jsonEncodeString (s : String) : String :=
  "\"" ++ String.join (s.data.map escapeChar) ++ "\""

/-- Model of Python json.dumps applied to an atomic value. -/
def dumpAtom : JAtom → String
  | .jnull => "null"
  | .jbool true => "true"
  | .jbool false => "false"
  | .jint n => toString n
  | .jstr s => jsonEncodeString s

/-- Comma-space separated concatenation, the default json.dumps item
separator. -/
def commaSep : List String → String
  | [] => ""
  | [x] => x
  | x :: y :: rest => x ++ ", " ++ commaSep (y :: rest)

/-- Model of json.dumps applied to a dict with string keys and atomic values
(keys in insertion order, default separators). -/
def dumpsObj (fs : List (String × JAtom)) : String :=
  "\x7b" ++ commaSep (fs.map fun p => jsonEncodeString p.1 ++ ": " ++ dumpAtom p.2) ++ "\x7d"

/-- Model of json.dumps applied to a list of row dicts. -/
def dumpsRows (rs : List (List (String × JAtom))) : String :=
  "[" ++ commaSep (rs.map dumpsObj) ++ "]"

/-- Model of json.dumps applied to a one-entry dict of strings, the shape of
the error and success markers of _execute_sql_query. -/
def dumpsStrObj (k v : String) : String :=
  "\x7b" ++ jsonEncodeString k ++ ": " ++ jsonEncodeString v ++ "\x7d"

/-- Python str.upper, embedded as ASCII uppercasing (the denylist keywords are
all ASCII). -/
def pyUpper (s : String) : String :=
  String.mk (s.data.map Char.toUpper)

/-- Tests whether the second list starts with the first list. -/
def leadsWith : List Char → List Char → Bool
  | [], _ => true
  | _ :: _, [] => false
  | a :: as, b :: bs => a == b && leadsWith as bs

/-- Tests whether needle occurs as a contiguous substring of hay, the model of
the Python membership test on str. -/
def hasSubstr (needle : List Char) : List Char → Bool
  | [] => needle.isEmpty
  | b :: bs => leadsWith needle (b :: bs) || hasSubstr needle bs

/-- Python str membership: needle in hay. -/
def strContains (hay needle : String) : Bool :=
  hasSubstr needle.data hay.data

/-- The forbidden_commands list from __init__. -/
def forbiddenCommands : List String :=
  ["DROP", "DELETE", "UPDATE", "INSERT", "CREATE", "ALTER",
   "TRUNCATE", "GRANT", "REVOKE", "COMMIT", "ROLLBACK"]

/-- The denylist loop of _execute_sql_query: some forbidden command is a
substring of sql_query.upper(). -/
def isForbidden (sqlQuery : String) : Bool :=
  forbiddenCommands.any (fun cmd => strContains (pyUpper sqlQuery) cmd)

/-- Observable database-side effects of one _execute_sql_query run, in order:
successful acquisitions and operations, and the releases performed by the
finally block. -/
inductive DbEvent where
  | connect
  | openCursor
  | execute
  | fetch
  | commit
  | closeCursor
  | closeConn
  deriving DecidableEq, Repr

/-- Oracle for one database interaction: for each step of the psycopg2
connect/cursor/execute/(fetch) sequence, whether it raises (some message) or
succeeds, and on a successful execute whether the cursor has a description
(column names) and which rows fetchall returns. -/
structure DbBehavior where
  connectErr : Option String
  cursorErr : Option String
  executeErr : Option String
  description : Option (List String)
  fetchErr : Option String
  rows : List (List JAtom)
  deriving DecidableEq, Repr

/-- Database oracle together with the behavior of conn.commit(). -/
structure DbBehaviorC extends DbBehavior where
  commitErr : Option String
  deriving DecidableEq, Repr

/-- Python zip on two lists, truncating at the shorter one. -/
def pyZip : List String → List JAtom → List (String × JAtom)
  | k :: ks, v :: vs => (k, v) :: pyZip ks vs
  | _, _ => []

/-- One insertion into a Python dict under construction: an existing key keeps
its position and takes the new value, a new key is appended. -/
def dictInsert (d : List (String × JAtom)) (k : String) (v : JAtom) :
    List (String × JAtom) :=
  if (d.map Prod.fst).contains k then
    d.map (fun p => if p.1 = k then (k, v) else p)
  else d ++ [(k, v)]

/-- Python dict built from a sequence of key-value pairs, as dict(zip(...)):
insertion order, later values override earlier ones for equal keys. -/
def pyDict (pairs : List (String × JAtom)) : List (String × JAtom) :=
  pairs.foldl (fun d p => dictInsert d p.1 p.2) []

/-- The json.dumps serialization of the error object _execute_sql_query
returns on a rejection or a caught exception. -/
def errJson (msg : String) : String :=
  dumpsStrObj "error" msg

/-- Denylist rejection message. -/
def notAllowedMsg : String := "You are not allowed to execute this command."

/-- Row-less statement success marker, serialized. -/
def successJson : String :=
  dumpsStrObj "message" "Query executed successfully."

/-- Embedding of NaturalLanguageQuery._execute_sql_query.  Given the database
oracle for this interaction, returns the string the Python function returns
together with the trace of database-side events, including the releases done
by the finally block (guarded by which resources were acquired, cursor closed
before connection, as in the source's locals() checks). -/
def runExecute (b : DbBehaviorC) (sqlQuery : String) : String × List DbEvent :=
  if isForbidden sqlQuery then
    (errJson notAllowedMsg, [])
  else
    match b.connectErr with
    | some e => (errJson e, [])
    | none =>
      match b.cursorErr with
      | some e => (errJson e, [.connect, .closeConn])
      | none =>
        match b.executeErr with
        | some e => (errJson e, [.connect, .openCursor, .closeCursor, .closeConn])
        | none =>
          match b.description with
          | some columns =>
            match b.fetchErr with
            | some e =>
                (errJson e,
                 [.connect, .openCursor, .execute, .closeCursor, .closeConn])
            | none =>
              let results := b.rows.map (fun row => pyDict (pyZip columns row))
              match b.commitErr with
              | some e =>
                  (errJson e,
                   [.connect, .openCursor, .execute, .fetch,
                    .closeCursor, .closeConn])
              | none =>
                  (dumpsRows results,
                   [.connect, .openCursor, .execute, .fetch, .commit,
                    .closeCursor, .closeConn])
          | none =>
            match b.commitErr with
            | some e =>
                (errJson e,
                 [.connect, .openCursor, .execute, .closeCursor, .closeConn])
            | none =>
                (successJson,
                 [.connect, .openCursor, .execute, .commit,
                  .closeCursor, .closeConn])

/-- A tool-call request in an LLM response: tool_call.id, tool_call.function
.name, and the parsed arguments object (json.loads of tool_call.function
.arguments, modelled post-parse as a key-value list). -/
structure ToolCall where
  id : String
  fname : String
  args : List (String × String)
  deriving DecidableEq, Repr

/-- One LLM response message (response.choices[0].message): optional content
and the tool_calls list; a Python None tool_calls is modelled as []. -/
structure LlmResponse where
  content : Option String
  toolCalls : List ToolCall
  deriving DecidableEq, Repr

/-- The tool_choice parameter sent with a chat completion request: the string
"auto", or the object forcing a named function. -/
inductive ToolChoice where
  | auto
  | forced (fname : String)
  deriving DecidableEq, Repr

/-- A transcript turn of self.messages. -/
inductive Message where
  | system (content : String)
  | user (content : String)
  | assistant (content : Option String) (toolCalls : List ToolCall)
  | tool (content : String) (toolCallId : String)
  deriving DecidableEq, Repr

/-- Dispatch through self.tools_map with keyword expansion of the parsed
arguments: only the key "execute_sql_query" is mapped, and _execute_sql_query
takes exactly the one argument sql_query; any other function name (KeyError)
or argument shape (TypeError) raises, modelled as none. -/
def callTool (execFn : String → String) (fname : String)
    (args : List (String × String)) : Option String :=
  if fname = "execute_sql_query" then
    match args with
    | [("sql_query", s)] => some (execFn s)
    | _ => none
  else none

/-- The for loop over message.tool_calls in run_query: execute each call in
order and append a tool turn whose content is json.dumps of the string the
executor returned.  Result: the transcript after the loop, how many calls
were executed, and whether the loop finished without raising. -/
def processToolCalls (execFn : String → String) :
    List ToolCall → List Message → List Message × Nat × Bool
  | [], msgs => (msgs, 0, true)
  | tc :: rest, msgs =>
    match callTool execFn tc.fname tc.args with
    | some result =>
        let step := processToolCalls execFn rest
          (msgs ++ [Message.tool (jsonEncodeString result) tc.id])
        (step.1, step.2.1 + 1, step.2.2)
    | none => (msgs, 0, false)

/-- How a run of the while loop ended. -/
inductive LoopOutcome where
  | answered (content : Option String)
  | raised
  | outOfFuel
  deriving DecidableEq, Repr

/-- Result of a run_query call: how it ended, the final self.messages, the
tool_choice sent with each LLM request in order, and how many tool calls were
executed. -/
structure LoopResult where
  outcome : LoopOutcome
  messages : List Message
  choices : List ToolChoice
  toolRuns : Nat
  deriving DecidableEq, Repr

/-- The while loop of run_query, driven by the list of successive LLM
responses (an exhausted list means the conversation was still looping:
outcome outOfFuel).  Each iteration sends a request whose tool_choice forces
execute_sql_query when force_tool is set and is "auto" otherwise, appends the
response message, clears force_tool, then either returns message.content
(no tool calls) or executes every requested tool call and continues. -/
def runLoop (execFn : String → String) :
    List LlmResponse → Bool → List Message → LoopResult
  | [], _, msgs => ⟨.outOfFuel, msgs, [], 0⟩
  | r :: rest, forceTool, msgs =>
    let choice := if forceTool then ToolChoice.forced "execute_sql_query"
                  else ToolChoice.auto
    let msgs1 := msgs ++ [Message.assistant r.content r.toolCalls]
    match r.toolCalls with
    | [] => ⟨.answered r.content, msgs1, [choice], 0⟩
    | tc :: tcs =>
      let step := processToolCalls execFn (tc :: tcs) msgs1
      if step.2.2 then
        let res := runLoop execFn rest false step.1
        ⟨res.outcome, res.messages, choice :: res.choices,
         step.2.1 + res.toolRuns⟩
      else ⟨.raised, step.1, [choice], step.2.1⟩

/-- Embedding of run_query: append the question as a user turn, then run the
while loop with force_tool initially True. -/
def runQuery (execFn : String → String) (responses : List LlmResponse)
    (msgs : List Message) (query : String) : LoopResult :=
  runLoop execFn responses true (msgs ++ [Message.user query])

/-- The eager schema-discovery query issued by _initialize_ai. -/
def schemaQuery : String :=
  "SELECT table_schema, table_name FROM information_schema.tables"

/-- The system prompt text of _initialize_ai (apostrophes written as x27
escapes). -/
def systemPrompt : String :=
  "You are an assistant who answers questions about a postgres database that you can access.\n" ++
  "                    You can execute any SELECT query using execute_sql_query tool.\n" ++
  "                    If you don\x27t have enough information you can query schema information and sample data from tables.\n" ++
  "                    Don\x27t speculate and don\x27t assume anything about the schema, read actual schema before referencing any tables or columns.\n" ++
  "                    Don\x27t ask for clarification from the user, this is not an interactive chat, explore database until you can provide a human readable answer.\n" ++
  "                        "

/-- Embedding of _initialize_ai, run by the constructor on the initially empty
self.messages: append the system prompt, then the schema-discovery result as
a user turn. -/
def initMessages (execFn : String → String) : List Message :=
  [Message.system systemPrompt, Message.user (execFn schemaQuery)]

/-- Serialization the sequence-of-mappings spec sentence describes for a
SELECT result.  Modelled from the spec: an array with one mapping per row,
each mapping pairing the declared column names, in declared order, with the
row's values. -/
def specRowsOutput (columns : List String) (rows : List (List JAtom)) : String :=
  dumpsRows (rows.map fun row => pyZip columns row)

/-- A sample successful SELECT interaction: two columns id, name and rows
(1, a), (2, b). -/
def sampleDb : DbBehaviorC :=
  ⟨⟨none, none, none, some ["id", "name"], none,
    [[.jint 1, .jstr "a"], [.jint 2, .jstr "b"]]⟩, none⟩

/-- A successful SELECT interaction whose two declared columns carry the same
name. -/
def dupColsDb : DbBehaviorC :=
  ⟨⟨none, none, none, some ["a", "a"], none, [[.jint 1, .jint 2]]⟩, none⟩

/-- A successful interaction with no result-set description (cur.description
is None). -/
def noRowsDb : DbBehaviorC :=
  ⟨⟨none, none, none, none, none, []⟩, none⟩

lemma pyZip_map_fst (cols : List String) :
    ∀ vals : List JAtom, vals.length = cols.length →
      (pyZip cols vals).map Prod.fst = cols := by
  induction cols with
  | nil => intro vals _; cases vals <;> simp [pyZip]
  | cons k ks ih =>
    intro vals h
    cases vals with
    | nil => simp at h
    | cons v vs =>
      simp only [pyZip, List.map_cons, List.cons.injEq, true_and]
      exact ih vs (by simpa using h)

lemma dictInsert_of_notMem (d : List (String × JAtom)) (k : String) (v : JAtom)
    (h : k ∉ d.map Prod.fst) : dictInsert d k v = d ++ [(k, v)] := by
  unfold dictInsert
  rw [if_neg]
  simpa using h

lemma pyDict_go_of_nodup :
    ∀ (pairs d : List (String × JAtom)),
      (pairs.map Prod.fst).Nodup →
      (∀ k ∈ pairs.map Prod.fst, k ∉ d.map Prod.fst) →
      pairs.foldl (fun d p => dictInsert d p.1 p.2) d = d ++ pairs := by
  intro pairs
  induction pairs with
  | nil => intro d _ _; simp
  | cons p rest ih =>
    intro d hnodup hfresh
    have hp : p.1 ∉ d.map Prod.fst := hfresh p.1 (by simp)
    have hstep : dictInsert d p.1 p.2 = d ++ [(p.1, p.2)] :=
      dictInsert_of_notMem d p.1 p.2 hp
    have hcons : (p.1 :: rest.map Prod.fst).Nodup := by simpa using hnodup
    have hnodup' : (rest.map Prod.fst).Nodup := (List.nodup_cons.mp hcons).2
    have hhead : p.1 ∉ rest.map Prod.fst := (List.nodup_cons.mp hcons).1
    have hfresh' : ∀ k ∈ rest.map Prod.fst, k ∉ (d ++ [(p.1, p.2)]).map Prod.fst := by
      intro k hk
      simp only [List.map_append, List.mem_append, List.map_cons, List.map_nil,
        List.mem_singleton, not_or]
      refine ⟨hfresh k (by simp [hk]), ?_⟩
      intro hkp
      exact hhead (by simpa [hkp] using hk)
    calc (p :: rest).foldl (fun d q => dictInsert d q.1 q.2) d
        = rest.foldl (fun d q => dictInsert d q.1 q.2) (d ++ [(p.1, p.2)]) := by
          simp [hstep]
      _ = (d ++ [(p.1, p.2)]) ++ rest := ih (d ++ [(p.1, p.2)]) hnodup' hfresh'
      _ = d ++ p :: rest := by simp

lemma pyDict_of_nodup (pairs : List (String × JAtom))
    (h : (pairs.map Prod.fst).Nodup) : pyDict pairs = pairs := by
  simpa using pyDict_go_of_nodup pairs [] h (by simp)

/-- C1: a query containing any denylisted keyword, case-insensitively, as a
substring anywhere in its text makes _execute_sql_query return the serialized
error object with the fixed refusal message, and the database-side event
trace is empty: no connection is opened and nothing is executed. -/
theorem execute_denylisted_rejected (b : DbBehaviorC) (sql : String)
    (h : ∃ cmd ∈ forbiddenCommands, strContains (pyUpper sql) cmd = true) :
    runExecute b sql = (errJson notAllowedMsg, []) ∧
    errJson notAllowedMsg =
      "\x7b\"error\": \"You are not allowed to execute this command.\"\x7d" := by
  have hf : isForbidden sql = true := by
    rcases h with ⟨cmd, hmem, hsub⟩
    unfold isForbidden
    exact List.any_eq_true.mpr ⟨cmd, hmem, hsub⟩
  exact ⟨by simp [runExecute, hf], by decide⟩

/-- Witness for C1 at the spec's own example query. -/
theorem execute_denylisted_rejected_witness :
    runExecute sampleDb "select * from t; drop table t" =
      (errJson notAllowedMsg, []) ∧
    errJson notAllowedMsg =
      "\x7b\"error\": \"You are not allowed to execute this command.\"\x7d" :=
  execute_denylisted_rejected sampleDb "select * from t; drop table t"
    ⟨"DROP", by decide, by decide⟩

/-- C2 counterexample: with two declared columns that share the name a,
dict(zip(columns, row)) collapses them, so the serialized result is not an
array of mappings with one key per described column; the produced mapping has
one key, not two. -/
theorem execute_select_rows_counterexample :
    (runExecute dupColsDb "SELECT 1 AS a, 2 AS a").1 ≠
      specRowsOutput ["a", "a"] [[.jint 1, .jint 2]] ∧
    ((pyDict (pyZip ["a", "a"] [.jint 1, .jint 2])).map Prod.fst).length ≠ 2 := by
  decide

/-- C2 (amended): for a non-denylisted query whose execution succeeds with a
described result set whose column names are pairwise distinct (and one value
per column in each row), the returned string is the JSON serialization of one
mapping per row, each mapping keyed by the declared column names in declared
order. -/
theorem execute_select_rows (b : DbBehaviorC) (sql : String) (cols : List String)
    (hforb : isForbidden sql = false)
    (hconn : b.connectErr = none) (hcur : b.cursorErr = none)
    (hexec : b.executeErr = none) (hdesc : b.description = some cols)
    (hfetch : b.fetchErr = none) (hcommit : b.commitErr = none)
    (hnodup : cols.Nodup)
    (hlen : ∀ row ∈ b.rows, row.length = cols.length) :
    (runExecute b sql).1 = specRowsOutput cols b.rows ∧
    ∀ row ∈ b.rows, (pyDict (pyZip cols row)).map Prod.fst = cols := by
  have hkeys : ∀ row ∈ b.rows, (pyDict (pyZip cols row)).map Prod.fst = cols := by
    intro row hrow
    rw [pyDict_of_nodup _ (by rw [pyZip_map_fst cols row (hlen row hrow)]; exact hnodup)]
    exact pyZip_map_fst cols row (hlen row hrow)
  refine ⟨?_, hkeys⟩
  have hdicts : b.rows.map (fun row => pyDict (pyZip cols row)) =
      b.rows.map (fun row => pyZip cols row) :=
    List.map_congr_left (fun row hrow =>
      pyDict_of_nodup _ (by rw [pyZip_map_fst cols row (hlen row hrow)]; exact hnodup))
  simp [runExecute, hforb, hconn, hcur, hexec, hdesc, hfetch, hcommit,
    specRowsOutput, hdicts]

/-- Witness for the amended C2 at the spec's SELECT id, name scenario. -/
theorem execute_select_rows_witness :
    (runExecute sampleDb "SELECT id, name FROM users").1 =
      specRowsOutput ["id", "name"] sampleDb.rows ∧
    ∀ row ∈ sampleDb.rows,
      (pyDict (pyZip ["id", "name"] row)).map Prod.fst = ["id", "name"] :=
  execute_select_rows sampleDb "SELECT id, name FROM users" ["id", "name"]
    (by decide) rfl rfl rfl rfl rfl rfl (by decide) (by decide)

/-- The text of the first exception the modelled database interaction raises
inside the try block of _execute_sql_query, if any: connect, then cursor,
then execute, then fetchall (only reached when the cursor has a description),
then commit. -/
def firstRaise (b : DbBehaviorC) : Option String :=
  match b.connectErr with
  | some e => some e
  | none =>
    match b.cursorErr with
    | some e => some e
    | none =>
      match b.executeErr with
      | some e => some e
      | none =>
        match b.description, b.fetchErr with
        | some _, some e => some e
        | _, _ => b.commitErr

/-- A database interaction whose connection attempt raises. -/
def failingDb : DbBehaviorC :=
  ⟨⟨some "connection refused", none, none, none, none, []⟩, none⟩

/-- C6: whenever any step of the database interaction raises (connection,
cursor acquisition, execution, fetching, or commit), _execute_sql_query
catches the exception and returns the serialized error object carrying the
exception text; no exception propagates (runExecute is total and this
equation covers every raising branch). -/
theorem execute_exception_caught (b : DbBehaviorC) (sql : String) (e : String)
    (hforb : isForbidden sql = false) (h : firstRaise b = some e) :
    (runExecute b sql).1 = errJson e := by
  rcases b with ⟨⟨c1, c2, c3, d, f, rows⟩, cm⟩
  rcases c1 with _ | e1 <;> rcases c2 with _ | e2 <;> rcases c3 with _ | e3 <;>
    rcases d with _ | cols <;> rcases f with _ | e4 <;> rcases cm with _ | e5 <;>
    simp [firstRaise] at h <;> simp [runExecute, hforb, h]

/-- Witness for C6: a refused connection is reported as an error result. -/
theorem execute_exception_caught_witness :
    (runExecute failingDb "SELECT 1").1 = errJson "connection refused" :=
  execute_exception_caught failingDb "SELECT 1" "connection refused"
    (by decide) rfl

/-- C7: in every execution, the last database-side event is the connection
release whenever a connection was acquired, immediately preceded by the
cursor release whenever a cursor was acquired (cursor closed first, then
connection), and a release is skipped exactly when the corresponding resource
was never acquired. -/
theorem execute_releases_resources (b : DbBehaviorC) (sql : String) :
    (DbEvent.connect ∈ (runExecute b sql).2 →
      (runExecute b sql).2.getLast? = some DbEvent.closeConn) ∧
    (DbEvent.openCursor ∈ (runExecute b sql).2 →
      (runExecute b sql).2.dropLast.getLast? = some DbEvent.closeCursor) ∧
    (DbEvent.connect ∉ (runExecute b sql).2 →
      DbEvent.closeConn ∉ (runExecute b sql).2) ∧
    (DbEvent.openCursor ∉ (runExecute b sql).2 →
      DbEvent.closeCursor ∉ (runExecute b sql).2) := by
  cases hforb : isForbidden sql with
  | true => simp [runExecute, hforb]
  | false =>
    rcases b with ⟨⟨c1, c2, c3, d, f, rows⟩, cm⟩
    rcases c1 with _ | e1 <;> rcases c2 with _ | e2 <;> rcases c3 with _ | e3 <;>
      rcases d with _ | cols <;> rcases f with _ | e4 <;> rcases cm with _ | e5 <;>
      simp [runExecute, hforb]

/-- Witness for C7: releases happen and are ordered on a successful SELECT,
and are skipped on a denylist rejection where nothing was acquired. -/
theorem execute_releases_resources_witness :
    (runExecute sampleDb "SELECT 1").2.getLast? = some DbEvent.closeConn ∧
    (runExecute sampleDb "SELECT 1").2.dropLast.getLast? = some DbEvent.closeCursor ∧
    DbEvent.closeConn ∉ (runExecute sampleDb "DROP TABLE users").2 ∧
    DbEvent.closeCursor ∉ (runExecute sampleDb "DROP TABLE users").2 :=
  ⟨(execute_releases_resources sampleDb "SELECT 1").1 (by decide),
   (execute_releases_resources sampleDb "SELECT 1").2.1 (by decide),
   (execute_releases_resources sampleDb "DROP TABLE users").2.2.1 (by decide),
   (execute_releases_resources sampleDb "DROP TABLE users").2.2.2 (by decide)⟩

/-- C8: on a non-denylisted statement whose execution raises nowhere, a
missing result-set description yields exactly the serialized success marker,
and the transaction is committed after execution in every such run, with or
without a result set (read-only SELECTs included). -/
theorem execute_commit_and_success (b : DbBehaviorC) (sql : String)
    (hforb : isForbidden sql = false) (hok : firstRaise b = none) :
    (b.description = none →
      (runExecute b sql).1 = successJson ∧
      successJson = "\x7b\"message\": \"Query executed successfully.\"\x7d") ∧
    [DbEvent.execute, DbEvent.commit].Sublist (runExecute b sql).2 := by
  rcases b with ⟨⟨c1, c2, c3, d, f, rows⟩, cm⟩
  rcases c1 with _ | e1 <;> rcases c2 with _ | e2 <;> rcases c3 with _ | e3 <;>
    rcases d with _ | cols <;> rcases f with _ | e4 <;> rcases cm with _ | e5 <;>
    simp [firstRaise] at hok <;> simp [runExecute, hforb] <;> decide

/-- Witness for C8: a row-less statement returns the success marker and
commits; a row-returning SELECT also commits. -/
theorem execute_commit_and_success_witness :
    ((noRowsDb.description = none →
      (runExecute noRowsDb "ANALYZE t").1 = successJson ∧
      successJson = "\x7b\"message\": \"Query executed successfully.\"\x7d") ∧
     [DbEvent.execute, DbEvent.commit].Sublist (runExecute noRowsDb "ANALYZE t").2) ∧
    [DbEvent.execute, DbEvent.commit].Sublist (runExecute sampleDb "SELECT 1").2 :=
  ⟨execute_commit_and_success noRowsDb "ANALYZE t" (by decide) rfl,
   (execute_commit_and_success sampleDb "SELECT 1" (by decide) rfl).2⟩

/-- A tool call is well formed when it names the one declared tool and its
parsed arguments consist of exactly the required sql_query parameter, as the
chat API's tool schema prescribes. -/
def wellFormedCall (tc : ToolCall) : Bool :=
  tc.fname == "execute_sql_query" &&
    match tc.args with
    | [(k, _)] => k == "sql_query"
    | _ => false

lemma callTool_of_wellFormed (execFn : String → String) (tc : ToolCall)
    (h : wellFormedCall tc = true) :
    ∃ s, tc.args = [("sql_query", s)] ∧
      callTool execFn tc.fname tc.args = some (execFn s) := by
  unfold wellFormedCall at h
  rcases tc with ⟨i, fname, args⟩
  simp only [Bool.and_eq_true, beq_iff_eq] at h
  obtain ⟨hf, hargs⟩ := h
  match args, hargs with
  | [(k, v)], hk =>
    have hk' : k = "sql_query" := by simpa using hk
    exact ⟨v, by simp [hk'], by simp [callTool, hf, hk']⟩

lemma processToolCalls_wf_ok (execFn : String → String) :
    ∀ (calls : List ToolCall) (msgs : List Message),
      (∀ tc ∈ calls, wellFormedCall tc = true) →
      (processToolCalls execFn calls msgs).2.2 = true := by
  intro calls
  induction calls with
  | nil => intro msgs _; rfl
  | cons tc rest ih =>
    intro msgs h
    obtain ⟨s, -, hct⟩ := callTool_of_wellFormed execFn tc (h tc (by simp))
    simp only [processToolCalls, hct]
    exact ih _ (fun tc' htc' => h tc' (by simp [htc']))

lemma processToolCalls_count (execFn : String → String) :
    ∀ (calls : List ToolCall) (msgs : List Message),
      (processToolCalls execFn calls msgs).2.2 = true →
      (processToolCalls execFn calls msgs).2.1 = calls.length := by
  intro calls
  induction calls with
  | nil => intro msgs _; rfl
  | cons tc rest ih =>
    intro msgs h
    simp only [processToolCalls] at h ⊢
    cases hct : callTool execFn tc.fname tc.args with
    | none => simp [hct] at h
    | some result =>
      simp only [hct] at h ⊢
      simp only [List.length_cons]
      rw [ih _ h]

lemma runLoop_choices_auto (execFn : String → String) :
    ∀ (responses : List LlmResponse) (msgs : List Message),
      ∀ c ∈ (runLoop execFn responses false msgs).choices, c = ToolChoice.auto := by
  intro responses
  induction responses with
  | nil => intro msgs c hc; simp [runLoop] at hc
  | cons r rest ih =>
    intro msgs c hc
    obtain ⟨rc, rtc⟩ := r
    cases rtc with
    | nil =>
      simp [runLoop] at hc
      simp [hc]
    | cons tc tcs =>
      simp only [runLoop] at hc
      split at hc
      · rcases List.mem_cons.mp hc with h1 | h2
        · simpa using h1
        · exact ih _ c h2
      · simpa using List.mem_singleton.mp hc

lemma runLoop_choices_forced (execFn : String → String) (r : LlmResponse)
    (rest : List LlmResponse) (msgs : List Message) :
    ∃ tail, (runLoop execFn (r :: rest) true msgs).choices =
        ToolChoice.forced "execute_sql_query" :: tail ∧
      ∀ c ∈ tail, c = ToolChoice.auto := by
  obtain ⟨rc, rtc⟩ := r
  cases rtc with
  | nil => exact ⟨[], by simp [runLoop], by simp⟩
  | cons tc tcs =>
    by_cases hstep :
        (processToolCalls execFn (tc :: tcs)
          (msgs ++ [Message.assistant rc (tc :: tcs)])).2.2 = true
    · exact ⟨(runLoop execFn rest false
          (processToolCalls execFn (tc :: tcs)
            (msgs ++ [Message.assistant rc (tc :: tcs)])).1).choices,
        by simp [runLoop, hstep],
        fun c hc => runLoop_choices_auto execFn rest _ c hc⟩
    · exact ⟨[], by simp [runLoop, hstep], by simp⟩

/-- C3 (amended): run_query has no auto-mode configuration: on every call,
with any executor, transcript, question and any nonempty response sequence,
the first LLM request carries the forced execute_sql_query tool_choice, never
"auto". -/
theorem runquery_first_request_forced (execFn : String → String)
    (r : LlmResponse) (rest : List LlmResponse) (msgs : List Message)
    (q : String) :
    (runQuery execFn (r :: rest) msgs q).choices.head? =
      some (ToolChoice.forced "execute_sql_query") := by
  obtain ⟨tail, htail, -⟩ :=
    runLoop_choices_forced execFn r rest (msgs ++ [Message.user q])
  simp [runQuery, htail]

/-- C3 counterexample: a concrete run_query call whose single LLM request
carries the forced tool_choice, which is not "auto"; the driver offers no
configuration under which the first iteration sends "auto". -/
theorem runquery_auto_mode_counterexample :
    (runQuery (fun _ => "") [⟨some "hi", []⟩] [] "q").choices =
      [ToolChoice.forced "execute_sql_query"] ∧
    ToolChoice.forced "execute_sql_query" ≠ ToolChoice.auto := by
  decide

/-- C4: in every run_query call the first LLM request forces
execute_sql_query and every later request sends "auto"; and whenever the
first response requests at least one tool call (as a forced tool_choice makes
a conforming LLM do) and the call returns an answer, at least one tool call
was executed before that answer was returned. -/
theorem runquery_forced_first (execFn : String → String)
    (responses : List LlmResponse) (msgs : List Message) (q : String) :
    (∀ i, i < (runQuery execFn responses msgs q).choices.length →
      (runQuery execFn responses msgs q).choices[i]? =
        some (if i = 0 then ToolChoice.forced "execute_sql_query"
              else ToolChoice.auto)) ∧
    (∀ r rest c, responses = r :: rest → r.toolCalls ≠ [] →
      (runQuery execFn responses msgs q).outcome = LoopOutcome.answered c →
      1 ≤ (runQuery execFn responses msgs q).toolRuns) := by
  constructor
  · intro i hi
    cases responses with
    | nil => simp [runQuery, runLoop] at hi
    | cons r rest =>
      obtain ⟨tail, htail, hauto⟩ :=
        runLoop_choices_forced execFn r rest (msgs ++ [Message.user q])
      have hch : (runQuery execFn (r :: rest) msgs q).choices =
          ToolChoice.forced "execute_sql_query" :: tail := htail
      rw [hch] at hi ⊢
      cases i with
      | zero => simp
      | succ j =>
        have hj : j < tail.length := by simpa using hi
        have : tail[j]? = some (tail.get ⟨j, hj⟩) := by
          simp [List.getElem?_eq_getElem hj]
        simp only [List.getElem?_cons_succ, this]
        rw [hauto (tail.get ⟨j, hj⟩) (tail.get_mem j hj)]
        simp
  · intro r rest c hresp hne hout
    subst hresp
    obtain ⟨rc, rtc⟩ := r
    cases rtc with
    | nil => exact absurd rfl hne
    | cons tc tcs =>
      by_cases hstep :
          (processToolCalls execFn (tc :: tcs)
            (msgs ++ [Message.user q, Message.assistant rc (tc :: tcs)])).2.2 = true
      · have hcount := processToolCalls_count execFn (tc :: tcs) _ hstep
        have hrun : (runQuery execFn (⟨rc, tc :: tcs⟩ :: rest) msgs q).toolRuns =
            (tc :: tcs).length +
              (runLoop execFn rest false
                (processToolCalls execFn (tc :: tcs)
                  (msgs ++ [Message.user q, Message.assistant rc (tc :: tcs)])).1).toolRuns := by
          simp [runQuery, runLoop, hstep, hcount]
        rw [hrun]
        simp only [List.length_cons]
        omega
      · have hr : (runQuery execFn (⟨rc, tc :: tcs⟩ :: rest) msgs q).outcome =
            LoopOutcome.raised := by
          simp [runQuery, runLoop, hstep]
        rw [hr] at hout
        simp at hout

/-- The executor instantiation used in driver witnesses: _execute_sql_query
against the sample database oracle. -/
def wExec : String → String := fun sql => (runExecute sampleDb sql).1

/-- A well-formed tool call requesting SELECT 1. -/
def wToolCall : ToolCall := ⟨"call_1", "execute_sql_query", [("sql_query", "SELECT 1")]⟩

/-- A two-iteration LLM conversation: one tool call, then a final answer. -/
def wResponses : List LlmResponse :=
  [⟨none, [wToolCall]⟩, ⟨some "two tables", []⟩]

/-- Witness for C4 on the concrete two-iteration conversation. -/
theorem runquery_forced_first_witness :
    (runQuery wExec wResponses [] "How many tables are in the schema?").choices[0]? =
      some (ToolChoice.forced "execute_sql_query") ∧
    1 ≤ (runQuery wExec wResponses [] "How many tables are in the schema?").toolRuns := by
  have h := runquery_forced_first wExec wResponses [] "How many tables are in the schema?"
  refine ⟨?_, ?_⟩
  · have := h.1 0 (by decide)
    simpa using this
  · exact h.2 ⟨none, [wToolCall]⟩ [⟨some "two tables", []⟩] (some "two tables")
      rfl (by decide) (by decide)

lemma runLoop_outcome_eq (execFn : String → String) :
    ∀ (responses : List LlmResponse) (force : Bool) (msgs : List Message),
      (∀ r ∈ responses, ∀ tc ∈ r.toolCalls, wellFormedCall tc = true) →
      (runLoop execFn responses force msgs).outcome =
        match responses.find? (fun r => r.toolCalls.isEmpty) with
        | some r => LoopOutcome.answered r.content
        | none => LoopOutcome.outOfFuel := by
  intro responses
  induction responses with
  | nil => intro force msgs _; rfl
  | cons r rest ih =>
    intro force msgs hwf
    obtain ⟨rc, rtc⟩ := r
    cases rtc with
    | nil => simp [runLoop, List.find?]
    | cons tc tcs =>
      have hok : (processToolCalls execFn (tc :: tcs)
          (msgs ++ [Message.assistant rc (tc :: tcs)])).2.2 = true :=
        processToolCalls_wf_ok execFn (tc :: tcs) _
          (fun tc' htc' => hwf ⟨rc, tc :: tcs⟩ (by simp) tc' htc')
      have hrest := ih false
        (processToolCalls execFn (tc :: tcs)
          (msgs ++ [Message.assistant rc (tc :: tcs)])).1
        (fun r' hr' => hwf r' (by simp [hr']))
      simp [runLoop, hok, hrest, List.find?]

/-- C5: under schema-conforming LLM responses, the run_query loop returns
exactly on the first response carrying no tool-call requests, and the
returned value is that response's content; while every response carries tool
calls the loop keeps iterating (and never returns within the supplied
responses). -/
theorem runquery_return_iff_no_toolcalls (execFn : String → String)
    (responses : List LlmResponse) (msgs : List Message) (q : String)
    (hwf : ∀ r ∈ responses, ∀ tc ∈ r.toolCalls, wellFormedCall tc = true) :
    (runQuery execFn responses msgs q).outcome =
      match responses.find? (fun r => r.toolCalls.isEmpty) with
      | some r => LoopOutcome.answered r.content
      | none => LoopOutcome.outOfFuel :=
  runLoop_outcome_eq execFn responses true (msgs ++ [Message.user q]) hwf

/-- Witness for C5: the concrete conversation returns on its second,
tool-call-free response with that response's content, and an all-tool-call
response list does not return. -/
theorem runquery_return_iff_no_toolcalls_witness :
    (runQuery wExec wResponses [] "q").outcome =
      LoopOutcome.answered (some "two tables") ∧
    (runQuery wExec [⟨none, [wToolCall]⟩] [] "q").outcome = LoopOutcome.outOfFuel := by
  constructor
  · have h := runquery_return_iff_no_toolcalls wExec wResponses [] "q" (by decide)
    exact h.trans (by decide)
  · have h := runquery_return_iff_no_toolcalls wExec [⟨none, [wToolCall]⟩] [] "q"
      (by decide)
    exact h.trans (by decide)

lemma processToolCalls_extends (execFn : String → String) :
    ∀ (calls : List ToolCall) (msgs : List Message),
      msgs <+: (processToolCalls execFn calls msgs).1 := by
  intro calls
  induction calls with
  | nil => intro msgs; exact List.prefix_rfl
  | cons tc rest ih =>
    intro msgs
    simp only [processToolCalls]
    cases hct : callTool execFn tc.fname tc.args with
    | none => exact List.prefix_rfl
    | some result =>
      exact (List.prefix_append msgs [Message.tool (jsonEncodeString result) tc.id]).trans
        (ih _)

lemma runLoop_extends (execFn : String → String) :
    ∀ (responses : List LlmResponse) (force : Bool) (msgs : List Message),
      msgs <+: (runLoop execFn responses force msgs).messages := by
  intro responses
  induction responses with
  | nil => intro force msgs; exact List.prefix_rfl
  | cons r rest ih =>
    intro force msgs
    obtain ⟨rc, rtc⟩ := r
    cases rtc with
    | nil =>
      simp only [runLoop]
      exact List.prefix_append msgs [Message.assistant rc []]
    | cons tc tcs =>
      have h1 : msgs <+: (processToolCalls execFn (tc :: tcs)
          (msgs ++ [Message.assistant rc (tc :: tcs)])).1 :=
        (List.prefix_append msgs [Message.assistant rc (tc :: tcs)]).trans
          (processToolCalls_extends execFn (tc :: tcs) _)
      by_cases hstep : (processToolCalls execFn (tc :: tcs)
          (msgs ++ [Message.assistant rc (tc :: tcs)])).2.2 = true
      · have h2 := ih false (processToolCalls execFn (tc :: tcs)
          (msgs ++ [Message.assistant rc (tc :: tcs)])).1
        simpa [runLoop, hstep] using h1.trans h2
      · simpa [runLoop, hstep] using h1

/-- C9: the transcript is append-only.  Construction seeds it with exactly
the system prompt followed by the schema result as a user turn, and every
run_query call leaves the prior transcript in place as a prefix of the new
one (with the user question appended immediately after it), whatever the LLM
responses are; so the transcript grows monotonically across calls. -/
theorem transcript_append_only (execFn : String → String)
    (responses : List LlmResponse) (msgs : List Message) (q : String) :
    initMessages execFn =
      [Message.system systemPrompt, Message.user (execFn schemaQuery)] ∧
    (msgs ++ [Message.user q]) <+:
      (runQuery execFn responses msgs q).messages ∧
    msgs <+: (runQuery execFn responses msgs q).messages := by
  refine ⟨rfl, ?_, ?_⟩
  · exact runLoop_extends execFn responses true (msgs ++ [Message.user q])
  · exact (List.prefix_append msgs [Message.user q]).trans
      (runLoop_extends execFn responses true (msgs ++ [Message.user q]))

lemma str_length_data (s : String) : s.length = s.data.length := by
  rcases s with ⟨l⟩
  rfl

lemma one_le_length_escapeChar (c : Char) : 1 ≤ (escapeChar c).length := by
  unfold escapeChar
  repeat' split
  all_goals
    simp [str_length_data, String.data_append, hex4, String.singleton]

lemma join_escapes_ge (l : List Char) :
    l.length ≤ (String.join (l.map escapeChar)).length := by
  rw [str_length_data, String.data_join]
  induction l with
  | nil => simp
  | cons c cs ih =>
    simp only [List.map_cons, List.flatten_cons, List.length_append,
      List.length_cons]
    have h1 : 1 ≤ (escapeChar c).data.length := by
      rw [← str_length_data]
      exact one_le_length_escapeChar c
    omega

lemma length_lt_jsonEncodeString (s : String) :
    s.length < (jsonEncodeString s).length := by
  unfold jsonEncodeString
  rw [String.length_append, String.length_append]
  have h1 := join_escapes_ge s.data
  have h2 : s.length = s.data.length := str_length_data s
  have h3 : ("\"" : String).length = 1 := rfl
  omega

lemma jsonEncodeString_ne (s : String) : jsonEncodeString s ≠ s := by
  intro h
  have := length_lt_jsonEncodeString s
  rw [h] at this
  exact lt_irrefl _ this

/-- C10: the tool-role turn appended for an executed tool call carries
json.dumps applied to the string _execute_sql_query had already returned: a
JSON string literal whose contents are the executor's own JSON document.
The appended content is jsonEncodeString of the executor result, which is
never the executor's text itself. -/
theorem tool_turn_double_encoded (execFn : String → String) (i s : String)
    (rest : List ToolCall) (msgs : List Message) :
    ((processToolCalls execFn
        (⟨i, "execute_sql_query", [("sql_query", s)]⟩ :: rest) msgs).1).take
        (msgs.length + 1) =
      msgs ++ [Message.tool (jsonEncodeString (execFn s)) i] ∧
    jsonEncodeString (execFn s) ≠ execFn s := by
  constructor
  · have hred : (processToolCalls execFn
        (⟨i, "execute_sql_query", [("sql_query", s)]⟩ :: rest) msgs).1 =
        (processToolCalls execFn rest
          (msgs ++ [Message.tool (jsonEncodeString (execFn s)) i])).1 := by
      simp [processToolCalls, callTool]
    rw [hred]
    have hpre := processToolCalls_extends execFn rest
      (msgs ++ [Message.tool (jsonEncodeString (execFn s)) i])
    have hlen : (msgs ++ [Message.tool (jsonEncodeString (execFn s)) i]).length =
        msgs.length + 1 := by simp
    rw [← hlen]
    exact (List.prefix_iff_eq_take.mp hpre).symm
  · exact jsonEncodeString_ne (execFn s)

/-- Witness for C10 at a concrete tool call against the sample database. -/
theorem tool_turn_double_encoded_witness :
    ((processToolCalls wExec
        (⟨"call_1", "execute_sql_query", [("sql_query", "SELECT 1")]⟩ :: []) []).1).take 1 =
      [Message.tool (jsonEncodeString (wExec "SELECT 1")) "call_1"] ∧
    jsonEncodeString (wExec "SELECT 1") ≠ wExec "SELECT 1" :=
  tool_turn_double_encoded wExec "call_1" "SELECT 1" [] []

end NLQ
